import Mathlib

/-!
Verification of the dashbored command-interpretation and reconciliation
engine (src/telegram_bot.py) against its natural-language specification.

The Python code manipulates JSON-like dictionaries.  We embed JSON values
as the inductive type `Value`, dictionaries as association lists (`Data`),
and translate each relevant function of the source into a Lean definition
keeping its name where possible.  Python numbers are modelled as rationals;
Python truthiness is modelled by `Value.truthy`.
-/

set_option maxHeartbeats 1000000
set_option linter.unusedVariables false

namespace Dashbored

/-- A JSON-like value as produced by `json.loads` in the source.
(`bool` is kept separate, but `Value.asNum` mirrors the fact that Python
booleans satisfy `isinstance(x, int)`.  JSON arrays occur in this pipeline
only as lists of strings — the `tags` field of a todos entry — so the
`list` constructor carries `List String`.) -/
inductive Value where
  | num (q : ℚ)
  | str (s : String)
  | list (l : List String)
  | bool (b : Bool)
  | null
deriving DecidableEq, Repr

/-- Python truthiness of a value: `0`, `""`, `[]`, `False`, `None` are falsy. -/
def Value.truthy : Value → Bool
  | .num q => q != 0
  | .str s => s != ""
  | .list l => !l.isEmpty
  | .bool b => b
  | .null => false

/-- Numeric view of a value, mirroring Python `isinstance(x, (int, float))`
(true for booleans as well, since `bool` is a subtype of `int` in Python). -/
def Value.asNum : Value → Option ℚ
  | .num q => some q
  | .bool b => some (if b then 1 else 0)
  | _ => none

/-- A Python dict with string keys, as an association list (insertion order). -/
abbrev Data := List (String × Value)

/-- `d.get k`: dictionary lookup, `dict.get(k)` in the source. -/
def Data.get : Data → String → Option Value
  | [], _ => none
  | (k, v) :: rest, key => if k = key then some v else Data.get rest key

/-- `d.set k v`: dictionary assignment `d[k] = v` (replace in place or append). -/
def Data.set : Data → String → Value → Data
  | [], k, v => [(k, v)]
  | (k', v') :: rest, k, v =>
      if k' = k then (k, v) :: rest else (k', v') :: Data.set rest k v

/-- `d.setdefault k v`: fill the key only when absent (`dict.setdefault`). -/
def Data.setdefault (d : Data) (k : String) (v : Value) : Data :=
  if (d.get k).isSome then d else d ++ [(k, v)]

/-- Truthiness of `d.get(k)` with absent keys falsy (`if data.get(k): ...`). -/
def Data.truthyAt (d : Data) (k : String) : Bool :=
  match d.get k with
  | some v => v.truthy
  | none => false

/-- `d.get(k)` followed by the Python numeric test. -/
def Data.numAt (d : Data) (k : String) : Option ℚ :=
  (d.get k).bind Value.asNum

example : Data.get [("a", Value.num 3)] "a" = some (.num 3) := by decide
example : Data.setdefault [("a", Value.num 3)] "a" (.num 5) =
    [("a", Value.num 3)] := by decide
example : Data.truthyAt [("a", Value.num 0)] "a" = false := by decide

/-! ### String helpers (Python `str.lower`, substring `in`, `==`) -/

/-- `needle` is an initial segment of `hay` (helper for the substring test). -/
def startsList : List Char → List Char → Bool
  | [], _ => true
  | _ :: _, [] => false
  | a :: as, b :: bs => (a = b) && startsList as bs

/-- `needle` occurs as a contiguous run inside `hay` (Python `needle in hay`). -/
def subOf (needle : List Char) : List Char → Bool
  | [] => needle.isEmpty
  | h :: t => startsList needle (h :: t) || subOf needle t

/-- ASCII lower-casing of one character (`str.lower`; the data handled by
this bot is ASCII). -/
def lowerChar (c : Char) : Char :=
  if 'A' ≤ c ∧ c ≤ 'Z' then Char.ofNat (c.toNat + 32) else c

/-- `s.lower()` as a character list. -/
def lowerStr (s : String) : List Char :=
  s.data.map lowerChar

/-- `a.lower() in b.lower()`: case-insensitive substring test of the source. -/
def isCISubstr (needle hay : String) : Bool :=
  subOf (lowerStr needle) (lowerStr hay)

/-- `a.lower() == b.lower()`: case-insensitive equality of the source. -/
def lowerEq (a b : String) : Bool :=
  lowerStr a = lowerStr b

example : isCISubstr "din" "Dinner" = true := by decide
example : isCISubstr "" "x" = true := by decide
example : lowerEq "sarah" "Sarah" = true := by decide

/-! ### Schema registry: `REQUIRED_FIELDS`, `REQUIRED_FIELDS_REMOVE`, `VALID_ENUMS`
(dicts in the source; `none` models a key absent from the dict). -/

def REQUIRED_FIELDS : String → Option (List String)
  | "finance" => some ["amount", "description", "subcategory"]
  | "net_worth" => some []
  | "dating" => some ["person", "status"]
  | "todos" => some ["task", "priority", "status"]
  | "habits" => some ["habit"]
  | "sleep" => some ["score"]
  | _ => none

def REQUIRED_FIELDS_REMOVE : String → Option (List String)
  | "finance" => some []
  | "net_worth" => some []
  | "dating" => some ["person"]
  | "todos" => some []
  | "habits" => some []
  | "sleep" => some []
  | _ => none

/-- Enum constraints per category, in the source dict order of the fields. -/
def VALID_ENUMS : String → List (String × List String)
  | "dating" => [("status", ["active", "texting", "backburner"])]
  | "todos" => [("priority", ["high", "medium", "low"]),
                ("status", ["pending", "in_progress", "done"])]
  | "habits" => [("habit", ["apps", "vlogs", "pm"])]
  | _ => []

/-- One enum field fails the check `if value and value not in allowed` of the
source: the key is present with a truthy value outside the allowed set. -/
def enumViolation (d : Data) : String × List String → Bool
  | (field, allowed) =>
    match Data.get d field with
    | some v => v.truthy && decide (v ∉ allowed.map Value.str)
    | none => false

/-! ### The extraction result and the validator -/

/-- The top-level extraction result dict (`parsed` in the source).  Fields the
source reads with `.get` are `Option`s; `needs_clarification` is the
truthiness of the corresponding entry. -/
structure Parsed where
  action : Option String
  category : Option String
  data : Data
  confidence : Option ℚ
  needs_clarification : Bool
  clarification_question : Option String
deriving DecidableEq, Repr

/-- `validate_parsed` from the source: returns `(is_valid, error_message)`.
Dynamic parts of the error strings are elided (no claim inspects them). -/
def validate_parsed (p : Parsed) : Bool × String :=
  let action := p.action.getD "add"
  let required_map := if action = "remove" then REQUIRED_FIELDS_REMOVE else REQUIRED_FIELDS
  match p.category with
  | none => (false, "Unknown category")
  | some category =>
    match required_map category with
    | none => (false, "Unknown category")
    | some required =>
      let missing := required.filter (fun f => (Data.get p.data f).isNone)
      if missing ≠ [] then (false, "Missing fields")
      else if action = "add" then
        match (VALID_ENUMS category).find? (enumViolation p.data) with
        | some _ => (false, "Invalid enum value")
        | none =>
          if category = "finance" then
            match Data.numAt p.data "amount" with
            | some amount => if amount ≤ 0 then (false, "Invalid amount") else (true, "")
            | none => (false, "Invalid amount")
          else if category = "net_worth" then
            let has_savings := (Data.numAt p.data "savings").isSome
            let has_trading := (Data.numAt p.data "trading").isSome
            if !has_savings && !has_trading then
              (false, "net_worth requires at least one of: savings, trading")
            else (true, "")
          else if category = "sleep" then
            match Data.numAt p.data "score" with
            | some score => if score < 0 ∨ 10 < score then (false, "Invalid sleep score") else (true, "")
            | none => (false, "Invalid sleep score")
          else (true, "")
      else (true, "")

/-! ### Defaulter (`_apply_defaults`) and the parse pipeline -/

/-- `_apply_defaults` from the source, with the current local date passed in
(`datetime.now().strftime` in the source).  It mutates `parsed["data"]` via
`setdefault`; modelled as returning the updated result. -/
def apply_defaults (today : String) (p : Parsed) : Parsed :=
  let d := p.data
  let d' :=
    if p.category = some "finance" then Data.setdefault d "date" (.str today)
    else if p.category = some "net_worth" then Data.setdefault d "date" (.str today)
    else if p.category = some "dating" then Data.setdefault d "date" (.str today)
    else if p.category = some "todos" then
      Data.setdefault (Data.setdefault d "status" (.str "pending")) "tags" (.list [])
    else if p.category = some "habits" then Data.setdefault d "date" (.str today)
    else if p.category = some "sleep" then Data.setdefault d "date" (.str today)
    else d
  { p with data := d' }

/-- `_error_response` from the source. -/
def error_response (question : String) : Parsed :=
  { action := none, category := some "unknown", data := [], confidence := none,
    needs_clarification := true, clarification_question := some question }

/-- The tail of `parse_with_claude` after a successful JSON decode: a
`needs_clarification` result is forwarded unchanged, otherwise validation
then defaulting run. -/
def pipeline (today : String) (p : Parsed) : Parsed :=
  if p.needs_clarification then p
  else if (validate_parsed p).1 then apply_defaults today p
  else error_response "I was not sure how to categorise that. Could you rephrase?"

/-! ### Reconciler (`_find_best_match`) -/

/-- A row returned by the store query in `remove_from_supabase`
(`select=id,category,data,created_at`, with `data` already decoded). -/
structure Row where
  id : ℕ
  category : String
  data : Data
  created_at : String
deriving DecidableEq, Repr

/-- String view of `row_data.get(k, "")`.  A present non-string value makes
the source raise on `.lower()` (aborting the whole remove call, hence no
match); theorems about matching therefore carry a well-typedness hypothesis
on rows, and this view is only relied on under it. -/
def strAtD (d : Data) (k : String) : String :=
  match Data.get d k with
  | some (.str s) => s
  | _ => ""

/-- The per-row score of `_find_best_match`: each criterion fires only when
the search value is truthy (`if search.get(...) and ...`).  A truthy
non-string search value for `description`/`person` raises on `.lower()` in
the source (aborting the call); it is scored 0 here and excluded by the
well-typedness hypotheses of the theorems. -/
def scoreRow (category : String) (search : Data) (row_data : Data) : ℕ :=
  if category = "finance" then
    (match Data.get search "amount" with
      | some v => if v.truthy ∧ Data.get row_data "amount" = some v then 3 else 0
      | none => 0)
    + (match Data.get search "description" with
      | some (.str t) => if t ≠ "" ∧ isCISubstr t (strAtD row_data "description") then 2 else 0
      | _ => 0)
    + (match Data.get search "subcategory" with
      | some v => if v.truthy ∧ Data.get row_data "subcategory" = some v then 1 else 0
      | none => 0)
    + (match Data.get search "date" with
      | some v => if v.truthy ∧ Data.get row_data "date" = some v then 1 else 0
      | none => 0)
  else if category = "dating" then
    (match Data.get search "person" with
      | some (.str t) => if t ≠ "" ∧ lowerEq t (strAtD row_data "person") then 5 else 0
      | _ => 0)
  else 0

/-- The running-best loop of `_find_best_match`: update only on a strict
`score > best_score`. -/
def bestFold (category : String) (search : Data) (rows : List Row)
    (acc : Option Row × ℕ) : Option Row × ℕ :=
  rows.foldl (fun acc row =>
    let score := scoreRow category search row.data
    if acc.2 < score then (some row, score) else acc) acc

/-- `_find_best_match` from the source: best row if its score is positive. -/
def find_best_match (category : String) (search : Data) (rows : List Row) : Option Row :=
  let best := bestFold category search rows (none, 0)
  if 0 < best.2 then best.1 else none

/-- The highest score over a candidate list (0 when empty). -/
def maxScore (category : String) (search : Data) (rows : List Row) : ℕ :=
  (rows.map (fun r => scoreRow category search r.data)).foldr max 0

/-! ### Orchestrator (`remove_from_supabase`, tail of `handle_message`) -/

/-- A side-effecting store call issued by the orchestrator. -/
inductive StoreOp where
  | query (category : String) (user_id : String) (order : String) (lim : ℕ)
  | insert (category : String) (d : Data) (user_id : String)
  | delete (id : ℕ)
deriving DecidableEq, Repr

/-- The user-facing outcome of one message. -/
inductive Outcome where
  | askClarification (question : String)
  | logged (category : String) (d : Data)
  | saveFailed
  | removed (r : Row)
  | nothingMatched
deriving DecidableEq, Repr

/-- `remove_from_supabase`: fetch up to 50 most-recent same-category rows
(`fetched` models the response of that query), reconcile, delete the match.
Returns the deleted row (if any) and the store calls issued; the delete is
modelled as effective, as in the store contract. -/
def remove_from_supabase (category : String) (d : Data) (user_id : String)
    (fetched : List Row) : Option Row × List StoreOp :=
  let q := StoreOp.query category user_id "created_at.desc" 50
  if fetched.isEmpty then (none, [q])
  else
    match find_best_match category d fetched with
    | none => (none, [q])
    | some m => (some m, [q, StoreOp.delete m.id])

/-- The tail of `handle_message` after the oracle call: `pipeline` models
`parse_with_claude`'s validation/defaulting, `save_ok` the result of
`save_to_supabase`, `fetched` the rows the remove-query returns.  (For every
result that reaches the non-clarification branch, validation has ensured the
category key is present, so `getD ""` is never the fallback there.) -/
def handle_message (today : String) (save_ok : Bool) (fetched : List Row)
    (user_id : String) (p : Parsed) : Outcome × List StoreOp :=
  let parsed := pipeline today p
  if parsed.needs_clarification then
    (.askClarification (parsed.clarification_question.getD "Could you provide more details?"), [])
  else
    let action := parsed.action.getD "add"
    let category := parsed.category.getD ""
    if action = "remove" then
      match remove_from_supabase category parsed.data user_id fetched with
      | (some m, ops) => (.removed m, ops)
      | (none, ops) => (.nothingMatched, ops)
    else
      if save_ok then (.logged category parsed.data, [.insert category parsed.data user_id])
      else (.saveFailed, [.insert category parsed.data user_id])

/-! ### Reminder scheduler (`check_reminders`) -/

/-- A todos row as fetched by the sweep (`select=id,user_id,data`). -/
structure TodoRow where
  id : ℕ
  user_id : String
  data : Data
deriving DecidableEq, Repr

/-- What happened to one row during one sweep: filtered out / delivery
attempted but the send failed / delivered and marked. -/
inductive SweepResult where
  | skipped
  | sendFailed
  | delivered
deriving DecidableEq, Repr

/-- One iteration of the sweep loop of `check_reminders` over one row.
`parseTime` models `datetime.fromisoformat(...).astimezone(utc)` (`none` when
it raises `ValueError`; a non-string raises `TypeError`, equally caught),
`now` the current UTC instant, and `sendOk` whether `bot.send_message`
succeeds for this row.  A successful delivery is followed by the
`reminded=True` patch, modelled as effective per the store contract. -/
def processRow (parseTime : String → Option ℤ) (now : ℤ) (sendOk : TodoRow → Bool)
    (row : TodoRow) : SweepResult × TodoRow :=
  match Data.get row.data "reminder_time" with
  | none => (.skipped, row)
  | some rstr =>
    if !rstr.truthy then (.skipped, row)
    else if Data.truthyAt row.data "reminded" then (.skipped, row)
    else if Data.get row.data "status" = some (.str "done") then (.skipped, row)
    else
      match rstr with
      | .str s =>
        match parseTime s with
        | none => (.skipped, row)
        | some t =>
          if now < t then (.skipped, row)
          else if sendOk row then
            (.delivered, { row with data := Data.set row.data "reminded" (.bool true) })
          else (.sendFailed, row)
      | _ => (.skipped, row)

/-- One sweep of `check_reminders` over the fetched todos rows: the loop body
applied to each row in order (a failure on one row skips only that row). -/
def check_reminders (parseTime : String → Option ℤ) (now : ℤ)
    (sendOk : TodoRow → Bool) (rows : List TodoRow) : List (SweepResult × TodoRow) :=
  rows.map (processRow parseTime now sendOk)

/-! ### Well-typedness of reconciliation inputs

A truthy non-string value in a field the source calls `.lower()` on raises
`AttributeError` in Python, aborting the whole remove call (no match, no
delete).  The matching theorems are scoped to inputs where this cannot
happen, which is every input the oracle schema produces. -/

/-- The option is a string, or falsy (so the source short-circuits before
`.lower()`). -/
def strOrFalsy : Option Value → Bool
  | some (.str _) => true
  | some v => !v.truthy
  | none => true

/-- The option is a string or absent (`row_data.get(k, "")` then `.lower()`). -/
def strOrAbsent : Option Value → Bool
  | some (.str _) => true
  | none => true
  | some _ => false

/-- The search criteria only put strings (or falsy values) where the source
lower-cases them. -/
def SearchWF (category : String) (search : Data) : Bool :=
  if category = "finance" then strOrFalsy (Data.get search "description")
  else if category = "dating" then strOrFalsy (Data.get search "person")
  else true

/-- A stored candidate only puts strings where the source lower-cases them. -/
def RowWF (category : String) (d : Data) : Bool :=
  if category = "finance" then strOrAbsent (Data.get d "description")
  else if category = "dating" then strOrAbsent (Data.get d "person")
  else true

/-! ### Claim-side scoring definitions

`financeScoreClaim` is modelled from the words of claim C3 / spec §4.3
("3 if criteria.amount is supplied and equals the candidate's amount", ...),
to be compared against `scoreRow`, which is translated from the source.
The `*Matches` definitions transcribe the amended wording, which adds the
truthiness guard the source applies. -/

/-- Claim wording: the criterion is supplied and equals the candidate's. -/
def suppliedEq (search cand : Data) (k : String) : Bool :=
  match Data.get search k with
  | some v => decide (Data.get cand k = some v)
  | none => false

/-- Claim wording: `description` is supplied and is a case-insensitive
substring of the candidate's description. -/
def suppliedSubstr (search cand : Data) : Bool :=
  match Data.get search "description" with
  | some (.str t) => isCISubstr t (strAtD cand "description")
  | _ => false

/-- The finance score exactly as claim C3 words it (no truthiness guard). -/
def financeScoreClaim (search cand : Data) : ℕ :=
  (if suppliedEq search cand "amount" then 3 else 0)
  + (if suppliedSubstr search cand then 2 else 0)
  + (if suppliedEq search cand "subcategory" then 1 else 0)
  + (if suppliedEq search cand "date" then 1 else 0)

/-- Amended wording: `amount` supplied with a truthy value and equal. -/
def amtMatches (search cand : Data) : Bool :=
  match Data.get search "amount" with
  | some v => v.truthy && decide (Data.get cand "amount" = some v)
  | none => false

/-- Amended wording: `description` supplied as a non-empty string and a
case-insensitive substring of the candidate's description. -/
def descMatches (search cand : Data) : Bool :=
  match Data.get search "description" with
  | some (.str t) => t != "" && isCISubstr t (strAtD cand "description")
  | _ => false

/-- Amended wording: `subcategory` supplied truthy and equal. -/
def subcatMatches (search cand : Data) : Bool :=
  match Data.get search "subcategory" with
  | some v => v.truthy && decide (Data.get cand "subcategory" = some v)
  | none => false

/-- Amended wording: `date` supplied truthy and equal. -/
def dateMatches (search cand : Data) : Bool :=
  match Data.get search "date" with
  | some v => v.truthy && decide (Data.get cand "date" = some v)
  | none => false

/-- Amended wording: `person` supplied as a non-empty string and equal to the
candidate's person, case-insensitively. -/
def personMatches (search cand : Data) : Bool :=
  match Data.get search "person" with
  | some (.str t) => t != "" && lowerEq t (strAtD cand "person")
  | _ => false

/-! ## Lemmas about dictionaries -/

theorem Data.get_append_left {d : Data} {k : String} {v : Value}
    (h : Data.get d k = some v) (l : Data) : Data.get (d ++ l) k = some v := by
  induction d with
  | nil => simp [Data.get] at h
  | cons hd tl ih =>
    obtain ⟨k', v'⟩ := hd
    simp only [Data.get, List.cons_append] at h ⊢
    split at h
    · simp [*] at h ⊢
    · simp only [*, if_false]
      exact ih h

theorem Data.get_append_single {d : Data} {k : String} (v : Value)
    (h : Data.get d k = none) : Data.get (d ++ [(k, v)]) k = some v := by
  induction d with
  | nil => simp [Data.get]
  | cons hd tl ih =>
    obtain ⟨k', v'⟩ := hd
    simp only [Data.get, List.cons_append] at h ⊢
    split at h
    · exact absurd h (by simp)
    · simp only [*, if_false]
      exact ih h

theorem Data.get_setdefault_self (d : Data) (k : String) (v : Value) :
    (Data.get (Data.setdefault d k v) k).isSome := by
  unfold Data.setdefault
  split
  · assumption
  · rename_i h
    rw [Data.get_append_single v (by simpa [Option.isNone_iff_eq_none] using h)]
    rfl

theorem Data.setdefault_of_isSome {d : Data} {k : String} (v : Value)
    (h : (Data.get d k).isSome) : Data.setdefault d k v = d := by
  unfold Data.setdefault
  simp [h]

theorem Data.get_setdefault_mono {d : Data} {k' : String} (k : String) (v : Value)
    (h : (Data.get d k').isSome) : (Data.get (Data.setdefault d k v) k').isSome := by
  unfold Data.setdefault
  split
  · exact h
  · obtain ⟨w, hw⟩ := Option.isSome_iff_exists.mp h
    rw [Data.get_append_left hw]
    rfl

theorem Data.setdefault_setdefault (d : Data) (k : String) (v w : Value) :
    Data.setdefault (Data.setdefault d k v) k w = Data.setdefault d k v :=
  Data.setdefault_of_isSome w (Data.get_setdefault_self d k v)

theorem Data.get_set_self (d : Data) (k : String) (v : Value) :
    Data.get (Data.set d k v) k = some v := by
  induction d with
  | nil => simp [Data.set, Data.get]
  | cons hd tl ih =>
    obtain ⟨k', v'⟩ := hd
    by_cases h : k' = k
    · simp [Data.set, Data.get, h]
    · simp [Data.set, Data.get, h, ih]

/-! ## C6 — the Defaulter is idempotent -/

/-- C6: `applyDefaults` is idempotent: for every command `c`,
`applyDefaults(applyDefaults(c)) = applyDefaults(c)`, because each branch
only fills keys that are absent (date for finance / net_worth / dating /
habits / sleep; status and tags for todos) and never modifies a key that is
already present.  (Proved for every command, well-formed or not.) -/
theorem C6_apply_defaults_idempotent (today : String) (p : Parsed) :
    apply_defaults today (apply_defaults today p) = apply_defaults today p := by
  have hdouble : ∀ d : Data,
      Data.setdefault (Data.setdefault
          (Data.setdefault (Data.setdefault d "status" (.str "pending")) "tags" (.list []))
          "status" (.str "pending")) "tags" (.list [])
        = Data.setdefault (Data.setdefault d "status" (.str "pending")) "tags" (.list []) := by
    intro d
    rw [Data.setdefault_of_isSome (.str "pending")
        (Data.get_setdefault_mono "tags" (.list []) (Data.get_setdefault_self d "status" _)),
      Data.setdefault_setdefault]
  simp only [apply_defaults]
  by_cases h1 : p.category = some "finance"
  · simp [h1, Data.setdefault_setdefault]
  · by_cases h2 : p.category = some "net_worth"
    · simp [h1, h2, Data.setdefault_setdefault]
    · by_cases h3 : p.category = some "dating"
      · simp [h1, h2, h3, Data.setdefault_setdefault]
      · by_cases h4 : p.category = some "todos"
        · simp [h1, h2, h3, h4, hdouble]
        · by_cases h5 : p.category = some "habits"
          · simp [h1, h2, h3, h4, h5, Data.setdefault_setdefault]
          · by_cases h6 : p.category = some "sleep"
            · simp [h1, h2, h3, h4, h5, h6, Data.setdefault_setdefault]
            · simp [h1, h2, h3, h4, h5, h6]

/-! ## C2 — the Reconciler selects the first row of strictly-highest positive score -/

theorem maxScore_cons (c : String) (s : Data) (r : Row) (rest : List Row) :
    maxScore c s (r :: rest) = max (scoreRow c s r.data) (maxScore c s rest) := by
  simp [maxScore]

theorem bestFold_cons (c : String) (s : Data) (r : Row) (rest : List Row)
    (acc : Option Row × ℕ) :
    bestFold c s (r :: rest) acc
      = bestFold c s rest
          (if acc.2 < scoreRow c s r.data then (some r, scoreRow c s r.data) else acc) := by
  simp [bestFold]

/-- If no row beats the running best, the loop leaves the accumulator alone. -/
theorem bestFold_le (c : String) (s : Data) :
    ∀ (rows : List Row) (a : Option Row) (b : ℕ),
      maxScore c s rows ≤ b → bestFold c s rows (a, b) = (a, b) := by
  intro rows
  induction rows with
  | nil => intro a b _; simp [bestFold]
  | cons r rest ih =>
    intro a b h
    rw [maxScore_cons] at h
    rw [bestFold_cons]
    have h1 : scoreRow c s r.data ≤ b := le_trans (le_max_left _ _) h
    have h2 : maxScore c s rest ≤ b := le_trans (le_max_right _ _) h
    simp only [not_lt.mpr h1, if_false]
    exact ih a b h2

/-- If some row beats the running best, the loop ends at the first row whose
score equals the maximum, carrying that maximum. -/
theorem bestFold_lt (c : String) (s : Data) :
    ∀ (rows : List Row) (a : Option Row) (b : ℕ),
      b < maxScore c s rows →
      ∃ r, rows.find? (fun r => scoreRow c s r.data == maxScore c s rows) = some r
        ∧ bestFold c s rows (a, b) = (some r, maxScore c s rows) := by
  intro rows
  induction rows with
  | nil => intro a b h; simp [maxScore] at h
  | cons r rest ih =>
    intro a b h
    rw [maxScore_cons] at h ⊢
    rw [bestFold_cons]
    by_cases hb : b < scoreRow c s r.data
    · simp only [hb, if_true]
      by_cases hM : maxScore c s rest ≤ scoreRow c s r.data
      · have hmax : max (scoreRow c s r.data) (maxScore c s rest) = scoreRow c s r.data :=
          max_eq_left hM
        refine ⟨r, ?_, ?_⟩
        · rw [hmax, List.find?_cons_of_pos _ (by simp)]
        · rw [hmax]
          exact bestFold_le c s rest (some r) _ hM
      · push_neg at hM
        have hmax : max (scoreRow c s r.data) (maxScore c s rest) = maxScore c s rest :=
          max_eq_right (le_of_lt hM)
        obtain ⟨r', hf, he⟩ := ih (some r) (scoreRow c s r.data) hM
        refine ⟨r', ?_, ?_⟩
        · rw [hmax, List.find?_cons_of_neg _ (by simp [Nat.ne_of_lt hM]), hf]
        · rw [hmax]; exact he
    · push_neg at hb
      simp only [not_lt.mpr hb, if_false]
      have hM : b < maxScore c s rest := by
        rcases max_cases (scoreRow c s r.data) (maxScore c s rest) with ⟨he, _⟩ | ⟨he, _⟩
        · omega
        · omega
      have hmax : max (scoreRow c s r.data) (maxScore c s rest) = maxScore c s rest :=
        max_eq_right (by omega)
      obtain ⟨r', hf, he⟩ := ih a b hM
      refine ⟨r', ?_, ?_⟩
      · rw [hmax, List.find?_cons_of_neg _ (by simp; omega), hf]
      · rw [hmax]; exact he

/-- C2: for every category, criteria map and candidate sequence (well-typed,
so the source raises no `AttributeError` while scoring), `_find_best_match`
returns `none` when the best score is 0, and otherwise the first-encountered
candidate attaining the strictly highest positive score — so on a score tie
the first (most recent, given the fetch order) candidate wins. -/
theorem C2_reconciler_selection (c : String) (s : Data) (rows : List Row)
    (hs : SearchWF c s = true) (hr : ∀ r ∈ rows, RowWF c r.data = true) :
    (maxScore c s rows = 0 → find_best_match c s rows = none)
    ∧ (0 < maxScore c s rows →
        find_best_match c s rows
          = rows.find? (fun r => scoreRow c s r.data == maxScore c s rows)) := by
  constructor
  · intro h0
    unfold find_best_match
    rw [bestFold_le c s rows none 0 (le_of_eq h0)]
    simp
  · intro hpos
    unfold find_best_match
    obtain ⟨r, hf, he⟩ := bestFold_lt c s rows none 0 hpos
    rw [he, hf]
    simp [hpos]

/-- Witness for C2: a dating search for "sarah" against two case-variant
"Sarah" rows — both score 5, and the first-encountered row is returned. -/
theorem C2_witness :
    0 < maxScore "dating" [("person", .str "sarah")]
        [⟨1, "dating", [("person", .str "Sarah")], "t1"⟩,
         ⟨0, "dating", [("person", .str "SARAH")], "t0"⟩]
    ∧ find_best_match "dating" [("person", .str "sarah")]
        [⟨1, "dating", [("person", .str "Sarah")], "t1"⟩,
         ⟨0, "dating", [("person", .str "SARAH")], "t0"⟩]
      = some ⟨1, "dating", [("person", .str "Sarah")], "t1"⟩ := by
  refine ⟨by decide, ?_⟩
  rw [(C2_reconciler_selection "dating" [("person", .str "sarah")]
      [⟨1, "dating", [("person", .str "Sarah")], "t1"⟩,
       ⟨0, "dating", [("person", .str "SARAH")], "t0"⟩]
      (by decide) (by decide)).2 (by decide)]
  decide

/-! ## C9 — categories without scoring rules never match, so a remove never deletes -/

theorem maxScore_of_score_zero {c : String} {s : Data}
    (h : ∀ d, scoreRow c s d = 0) (rows : List Row) : maxScore c s rows = 0 := by
  induction rows with
  | nil => rfl
  | cons r rest ih => rw [maxScore_cons, h, ih]; simp

/-- C9: for every category other than finance and dating, every candidate
scores 0 whatever the criteria, the Reconciler returns `none` for every
candidate sequence, and a validated remove command in such a category yields
NothingMatched with no delete issued to the store. -/
theorem C9_no_rules_no_match (c : String) (hf : c ≠ "finance") (hd : c ≠ "dating") :
    (∀ search d, scoreRow c search d = 0)
    ∧ (∀ search rows, find_best_match c search rows = none)
    ∧ (∀ today save_ok fetched uid (p : Parsed),
        p.needs_clarification = false → (validate_parsed p).1 = true →
        p.action = some "remove" → p.category = some c →
        handle_message today save_ok fetched uid p
          = (.nothingMatched, [.query c uid "created_at.desc" 50])) := by
  have hscore : ∀ search d, scoreRow c search d = 0 := by
    intro search d; simp [scoreRow, hf, hd]
  have hfind : ∀ search rows, find_best_match c search rows = none := by
    intro search rows
    unfold find_best_match
    rw [bestFold_le c search rows none 0
      (le_of_eq (maxScore_of_score_zero (hscore search) rows))]
    simp
  refine ⟨hscore, hfind, ?_⟩
  intro today save_ok fetched uid p hnc hv hact hcat
  rcases fetched with _ | ⟨r, rest⟩
  · simp [handle_message, pipeline, hnc, hv, hact, hcat, apply_defaults, remove_from_supabase]
  · simp [handle_message, pipeline, hnc, hv, hact, hcat, apply_defaults, remove_from_supabase,
      hfind]

/-- Witness for C9: a todos remove with matching task text still matches
nothing and deletes nothing. -/
theorem C9_witness :
    scoreRow "todos" [("task", .str "x")] [("task", .str "x")] = 0
    ∧ find_best_match "todos" [("task", .str "x")]
        [⟨3, "todos", [("task", .str "x")], "t"⟩] = none
    ∧ handle_message "2026-10-12" true [⟨3, "todos", [("task", .str "x")], "t"⟩] "42"
        ⟨some "remove", some "todos", [("task", .str "x")], none, false, none⟩
      = (.nothingMatched, [.query "todos" "42" "created_at.desc" 50]) := by
  have h := C9_no_rules_no_match "todos" (by decide) (by decide)
  exact ⟨h.1 _ _, h.2.1 _ _,
    h.2.2 "2026-10-12" true [⟨3, "todos", [("task", .str "x")], "t"⟩] "42"
      ⟨some "remove", some "todos", [("task", .str "x")], none, false, none⟩
      rfl (by decide) rfl rfl⟩

/-! ## C3 — the scoring table: corrected (the source guards every criterion
with Python truthiness, so a supplied-but-falsy criterion contributes 0) -/

/-- Counterexample to C3 as stated: `criteria.amount` is supplied (value `0`)
and equals the candidate's amount, so the claimed table scores 3, but the
source's `if search.get("amount") and ...` guard sees the falsy `0` and
scores 0. -/
theorem C3_counterexample :
    Data.get [("amount", Value.num 0)] "amount" = some (.num 0)
    ∧ financeScoreClaim [("amount", Value.num 0)] [("amount", Value.num 0)] = 3
    ∧ scoreRow "finance" [("amount", Value.num 0)] [("amount", Value.num 0)] = 0 := by
  decide

theorem amt_summand (search cand : Data) :
    (match Data.get search "amount" with
      | some v => if v.truthy ∧ Data.get cand "amount" = some v then (3:ℕ) else 0
      | none => 0) = (if amtMatches search cand then 3 else 0) := by
  unfold amtMatches
  cases Data.get search "amount" with
  | none => simp
  | some v =>
    by_cases h1 : v.truthy <;> by_cases h2 : Data.get cand "amount" = some v <;>
      simp [h1, h2]

theorem desc_summand (search cand : Data) :
    (match Data.get search "description" with
      | some (.str t) =>
        if t ≠ "" ∧ isCISubstr t (strAtD cand "description") then (2:ℕ) else 0
      | _ => 0) = (if descMatches search cand then 2 else 0) := by
  unfold descMatches
  cases hD : Data.get search "description" with
  | none => simp
  | some v =>
    cases v with
    | str t =>
      by_cases h1 : t = "" <;> by_cases h2 : isCISubstr t (strAtD cand "description") = true <;>
        simp [h1, h2]
    | num q => simp
    | list l => simp
    | bool b => simp
    | null => simp

theorem subcat_summand (search cand : Data) :
    (match Data.get search "subcategory" with
      | some v => if v.truthy ∧ Data.get cand "subcategory" = some v then (1:ℕ) else 0
      | none => 0) = (if subcatMatches search cand then 1 else 0) := by
  unfold subcatMatches
  cases Data.get search "subcategory" with
  | none => simp
  | some v =>
    by_cases h1 : v.truthy <;> by_cases h2 : Data.get cand "subcategory" = some v <;>
      simp [h1, h2]

theorem date_summand (search cand : Data) :
    (match Data.get search "date" with
      | some v => if v.truthy ∧ Data.get cand "date" = some v then (1:ℕ) else 0
      | none => 0) = (if dateMatches search cand then 1 else 0) := by
  unfold dateMatches
  cases Data.get search "date" with
  | none => simp
  | some v =>
    by_cases h1 : v.truthy <;> by_cases h2 : Data.get cand "date" = some v <;>
      simp [h1, h2]

theorem person_summand (search cand : Data) :
    (match Data.get search "person" with
      | some (.str t) => if t ≠ "" ∧ lowerEq t (strAtD cand "person") then (5:ℕ) else 0
      | _ => 0) = (if personMatches search cand then 5 else 0) := by
  unfold personMatches
  cases hD : Data.get search "person" with
  | none => simp
  | some v =>
    cases v with
    | str t =>
      by_cases h1 : t = "" <;> by_cases h2 : lowerEq t (strAtD cand "person") = true <;>
        simp [h1, h2]
    | num q => simp
    | list l => simp
    | bool b => simp
    | null => simp

/-- C3, amended: each criterion contributes only when it is supplied *with a
truthy value* (non-zero number / non-empty string): finance scores
3 for an equal truthy amount, 2 for a non-empty description occurring
case-insensitively in the candidate's description, 1 each for an equal truthy
subcategory and date; dating scores 5 for a non-empty person equal
case-insensitively to the candidate's person; everything else contributes 0
(inputs well-typed, so the source raises no `AttributeError`). -/
theorem C3_scoring_amended (search cand : Data)
    (hs1 : SearchWF "finance" search = true) (hs2 : SearchWF "dating" search = true)
    (hr1 : RowWF "finance" cand = true) (hr2 : RowWF "dating" cand = true) :
    scoreRow "finance" search cand
      = (if amtMatches search cand then 3 else 0)
        + (if descMatches search cand then 2 else 0)
        + (if subcatMatches search cand then 1 else 0)
        + (if dateMatches search cand then 1 else 0)
    ∧ scoreRow "dating" search cand = (if personMatches search cand then 5 else 0) := by
  constructor
  · show (if ("finance":String) = "finance" then _ else _) = _
    rw [if_pos rfl, amt_summand, desc_summand, subcat_summand, date_summand]
  · show (if ("dating":String) = "finance" then _ else _) = _
    rw [if_neg (by decide), if_pos rfl, person_summand]

/-- Witness for the amended C3: a dinner search scoring 3 + 2 on a candidate,
and the Sarah / sarah dating example scoring 5. -/
theorem C3_witness :
    scoreRow "finance"
        [("amount", .num 47), ("description", .str "DIN")]
        [("amount", .num 47), ("description", .str "dinner")]
      = (if amtMatches [("amount", .num 47), ("description", .str "DIN")]
              [("amount", .num 47), ("description", .str "dinner")] then 3 else 0)
        + (if descMatches [("amount", .num 47), ("description", .str "DIN")]
              [("amount", .num 47), ("description", .str "dinner")] then 2 else 0)
        + (if subcatMatches [("amount", .num 47), ("description", .str "DIN")]
              [("amount", .num 47), ("description", .str "dinner")] then 1 else 0)
        + (if dateMatches [("amount", .num 47), ("description", .str "DIN")]
              [("amount", .num 47), ("description", .str "dinner")] then 1 else 0)
    ∧ scoreRow "dating" [("person", .str "sarah")] [("person", .str "Sarah")]
      = (if personMatches [("person", .str "sarah")] [("person", .str "Sarah")] then 5 else 0) :=
  ⟨(C3_scoring_amended [("amount", .num 47), ("description", .str "DIN")]
      [("amount", .num 47), ("description", .str "dinner")]
      (by decide) (by decide) (by decide) (by decide)).1,
   (C3_scoring_amended [("person", .str "sarah")] [("person", .str "Sarah")]
      (by decide) (by decide) (by decide) (by decide)).2⟩

/-! ## C1 — reminder delivery: at-least-once on failure, at-most-once on success -/

/-- Any row whose `reminded` value is truthy is filtered out by every sweep:
no delivery attempt, row unchanged. -/
theorem processRow_of_reminded (parseTime : String → Option ℤ) (now : ℤ)
    (sendOk : TodoRow → Bool) (r : TodoRow)
    (h : Data.truthyAt r.data "reminded" = true) :
    processRow parseTime now sendOk r = (.skipped, r) := by
  unfold processRow
  cases hg : Data.get r.data "reminder_time" with
  | none => rfl
  | some rstr =>
    by_cases ht : rstr.truthy <;> simp [ht, h]

/-- C1: a todos row observed by a sweep with `reminder_time` present (a
non-empty string the time parser accepts), `reminded` falsy, status not
"done", and `reminder_time <= now` gets exactly one delivery attempt in that
sweep; on success the sweep persists `reminded=true` (after which every sweep
filters the row out and never attempts delivery again); on failure the row is
left unchanged and any later sweep whose `now` has passed the reminder time
attempts it again. -/
theorem C1_reminder_lifecycle (parseTime : String → Option ℤ) (now : ℤ)
    (sendOk : TodoRow → Bool) (r : TodoRow) (s : String) (t : ℤ)
    (h1 : Data.get r.data "reminder_time" = some (.str s))
    (h2 : s ≠ "")
    (h3 : Data.truthyAt r.data "reminded" = false)
    (h4 : Data.get r.data "status" ≠ some (.str "done"))
    (h5 : parseTime s = some t)
    (h6 : t ≤ now) :
    (processRow parseTime now sendOk r).1
      = (if sendOk r then .delivered else .sendFailed)
    ∧ (sendOk r = true →
        processRow parseTime now sendOk r
          = (.delivered, { r with data := Data.set r.data "reminded" (.bool true) })
        ∧ Data.truthyAt (Data.set r.data "reminded" (.bool true)) "reminded" = true
        ∧ ∀ (pt2 : String → Option ℤ) (now2 : ℤ) (send2 : TodoRow → Bool),
            processRow pt2 now2 send2 { r with data := Data.set r.data "reminded" (.bool true) }
              = (.skipped, { r with data := Data.set r.data "reminded" (.bool true) }))
    ∧ (sendOk r = false →
        processRow parseTime now sendOk r = (.sendFailed, r)
        ∧ ∀ (now2 : ℤ) (send2 : TodoRow → Bool), t ≤ now2 →
            (processRow parseTime now2 send2 r).1
              = (if send2 r then .delivered else .sendFailed))
    ∧ (∀ (pt2 : String → Option ℤ) (now2 : ℤ) (send2 : TodoRow → Bool) (r2 : TodoRow),
        Data.truthyAt r2.data "reminded" = true →
        processRow pt2 now2 send2 r2 = (.skipped, r2)) := by
  have htr : Data.truthyAt (Data.set r.data "reminded" (.bool true)) "reminded" = true := by
    unfold Data.truthyAt
    rw [Data.get_set_self]
    rfl
  have hrun : ∀ (now2 : ℤ) (send2 : TodoRow → Bool), t ≤ now2 →
      processRow parseTime now2 send2 r
        = (if send2 r then
            (.delivered, { r with data := Data.set r.data "reminded" (.bool true) })
          else (.sendFailed, r)) := by
    intro now2 send2 hle
    unfold processRow
    rw [h1]
    have hst : (Value.str s).truthy = true := by simp [Value.truthy, h2]
    simp only [hst, Bool.not_true, Bool.false_eq_true, if_false, h3, h5,
      if_neg (not_lt.mpr hle)]
    split <;> split <;> simp_all
  refine ⟨?_, ?_, ?_, ?_⟩
  · rw [hrun now sendOk h6]
    split <;> rfl
  · intro hok
    refine ⟨by rw [hrun now sendOk h6, if_pos hok], htr, ?_⟩
    intro pt2 now2 send2
    exact processRow_of_reminded pt2 now2 send2 _ htr
  · intro hfail
    refine ⟨by rw [hrun now sendOk h6, if_neg (by simp [hfail])], ?_⟩
    intro now2 send2 hle
    rw [hrun now2 send2 hle]
    split <;> rfl
  · intro pt2 now2 send2 r2 h
    exact processRow_of_reminded pt2 now2 send2 r2 h

/-- Witness for C1: a due pending reminder at t=100 observed at now=200 with
a succeeding transport is delivered and marked. -/
theorem C1_witness :
    (processRow (fun s => if s = "T" then some 100 else none) 200 (fun _ => true)
        ⟨7, "42", [("task", .str "x"), ("reminder_time", .str "T")]⟩).1 = .delivered
    ∧ processRow (fun s => if s = "T" then some 100 else none) 200 (fun _ => true)
        ⟨7, "42", [("task", .str "x"), ("reminder_time", .str "T")]⟩
      = (.delivered, ⟨7, "42",
          [("task", .str "x"), ("reminder_time", .str "T"), ("reminded", .bool true)]⟩) := by
  have h := C1_reminder_lifecycle (fun s => if s = "T" then some 100 else none) 200
    (fun _ => true) ⟨7, "42", [("task", .str "x"), ("reminder_time", .str "T")]⟩ "T" 100
    (by decide) (by decide) (by decide) (by decide) rfl (by decide)
  refine ⟨by rw [h.1]; rfl, ?_⟩
  rw [(h.2.1 rfl).1]
  decide

/-! ## C10 — an unparseable reminder_time is skipped silently, forever -/

/-- C10: a todos row whose `reminder_time` is present but rejected by the
timestamp parser is skipped by every sweep — no delivery attempt, `reminded`
never set, and the sweep continues with the rest of the rows. -/
theorem C10_unparseable_skipped (parseTime : String → Option ℤ) (r : TodoRow) (s : String)
    (h1 : Data.get r.data "reminder_time" = some (.str s))
    (h2 : parseTime s = none) :
    ∀ (now : ℤ) (sendOk : TodoRow → Bool) (rest : List TodoRow),
      processRow parseTime now sendOk r = (.skipped, r)
      ∧ check_reminders parseTime now sendOk (r :: rest)
          = (.skipped, r) :: check_reminders parseTime now sendOk rest := by
  intro now sendOk rest
  have hp : processRow parseTime now sendOk r = (.skipped, r) := by
    unfold processRow
    rw [h1]
    by_cases ht : (Value.str s).truthy <;>
      by_cases hrem : Data.truthyAt r.data "reminded" <;>
      by_cases hst : Data.get r.data "status" = some (.str "done") <;>
      simp [ht, hrem, hst, h2]
  exact ⟨hp, by simp [check_reminders, hp]⟩

/-- Witness for C10: a garbage reminder_time is skipped and the sweep moves on. -/
theorem C10_witness :
    processRow (fun _ => none) 200 (fun _ => true)
        ⟨7, "42", [("reminder_time", .str "garbage")]⟩ = (.skipped,
        ⟨7, "42", [("reminder_time", .str "garbage")]⟩)
    ∧ check_reminders (fun _ => none) 200 (fun _ => true)
        [⟨7, "42", [("reminder_time", .str "garbage")]⟩]
      = [(.skipped, ⟨7, "42", [("reminder_time", .str "garbage")]⟩)] :=
  C10_unparseable_skipped (fun _ => none) ⟨7, "42", [("reminder_time", .str "garbage")]⟩
    "garbage" (by decide) rfl 200 (fun _ => true) []

/-! ## C7 — needs_clarification bypasses everything -/

/-- C7: an extraction result with `needs_clarification` set bypasses
validation and defaulting entirely (the pipeline forwards it unchanged), the
outcome is AskClarification carrying the result's clarification question, and
no store call of any kind is issued. -/
theorem C7_clarification_bypass (today : String) (save_ok : Bool) (fetched : List Row)
    (uid : String) (p : Parsed) (q : String)
    (h : p.needs_clarification = true) (hq : p.clarification_question = some q) :
    pipeline today p = p
    ∧ handle_message today save_ok fetched uid p = (.askClarification q, []) := by
  have hp : pipeline today p = p := by simp [pipeline, h]
  refine ⟨hp, ?_⟩
  simp [handle_message, hp, h, hq]

/-- Witness for C7: an ambiguous result is answered with its own question and
zero store calls. -/
theorem C7_witness :
    pipeline "2026-10-12" ⟨none, some "unknown", [], none, true, some "Which one?"⟩
      = ⟨none, some "unknown", [], none, true, some "Which one?"⟩
    ∧ handle_message "2026-10-12" true [⟨1, "finance", [], "t"⟩] "42"
        ⟨none, some "unknown", [], none, true, some "Which one?"⟩
      = (.askClarification "Which one?", []) :=
  C7_clarification_bypass "2026-10-12" true [⟨1, "finance", [], "t"⟩] "42"
    ⟨none, some "unknown", [], none, true, some "Which one?"⟩ "Which one?" rfl rfl

/-! ## C8 — the remove flow: one bounded descending fetch, at most one delete -/

/-- C8: for a validated remove command, the orchestrator issues one fetch of
the user's most recent same-category rows (ordered `created_at.desc`, limit
50) and runs the Reconciler on the result; a match produces exactly one
delete, filtered to the match's id, with outcome Removed(match); no match
produces no delete and outcome NothingMatched. -/
theorem C8_remove_flow (today : String) (save_ok : Bool) (fetched : List Row)
    (uid : String) (p : Parsed) (c : String)
    (hnc : p.needs_clarification = false)
    (hv : (validate_parsed p).1 = true)
    (hact : p.action = some "remove")
    (hcat : p.category = some c)
    (hs : SearchWF c (apply_defaults today p).data = true)
    (hr : ∀ r ∈ fetched, RowWF c r.data = true) :
    (∀ m, find_best_match c (apply_defaults today p).data fetched = some m →
        handle_message today save_ok fetched uid p
          = (.removed m, [.query c uid "created_at.desc" 50, .delete m.id]))
    ∧ (find_best_match c (apply_defaults today p).data fetched = none →
        handle_message today save_ok fetched uid p
          = (.nothingMatched, [.query c uid "created_at.desc" 50])) := by
  have hpip : pipeline today p = apply_defaults today p := by simp [pipeline, hnc, hv]
  have ha : (apply_defaults today p).action = p.action := rfl
  have hcg : (apply_defaults today p).category = p.category := rfl
  have hncd : (apply_defaults today p).needs_clarification = false := hnc
  constructor
  · intro m hm
    have hne : ¬ fetched.isEmpty := by
      cases fetched with
      | nil => simp [find_best_match, bestFold] at hm
      | cons a l => simp
    simp [handle_message, hpip, hncd, ha, hact, hcg, hcat, remove_from_supabase, hne, hm]
  · intro hm
    by_cases hne : fetched.isEmpty = true
    · simp [handle_message, hpip, hncd, ha, hact, hcg, hcat, remove_from_supabase, hne]
    · simp [handle_message, hpip, hncd, ha, hact, hcg, hcat, remove_from_supabase, hne, hm]

/-- Witness for C8: removing "Sarah" against a store holding one Sarah row
issues exactly one delete, for that row's id. -/
theorem C8_witness :
    find_best_match "dating"
        (apply_defaults "2026-10-12"
          ⟨some "remove", some "dating", [("person", .str "Sarah")], none, false, none⟩).data
        [⟨9, "dating", [("person", .str "Sarah")], "t"⟩]
      = some ⟨9, "dating", [("person", .str "Sarah")], "t"⟩
    ∧ handle_message "2026-10-12" true [⟨9, "dating", [("person", .str "Sarah")], "t"⟩] "42"
        ⟨some "remove", some "dating", [("person", .str "Sarah")], none, false, none⟩
      = (.removed ⟨9, "dating", [("person", .str "Sarah")], "t"⟩,
         [.query "dating" "42" "created_at.desc" 50, .delete 9]) :=
  ⟨by decide,
   (C8_remove_flow "2026-10-12" true [⟨9, "dating", [("person", .str "Sarah")], "t"⟩] "42"
      ⟨some "remove", some "dating", [("person", .str "Sarah")], none, false, none⟩ "dating"
      rfl (by decide) rfl rfl (by decide) (by decide)).1
    ⟨9, "dating", [("person", .str "Sarah")], "t"⟩ (by decide)⟩

/-! ## C4 — category-specific numeric checks of the Validator -/

/-- C4: on `add`, the Validator rejects a finance command whose amount is
non-numeric or `<= 0`, a sleep command whose score is non-numeric or outside
`[0, 10]`, and a net_worth command with neither savings nor trading present
as a number; an add command satisfying the relevant numeric condition (with
its required fields present) is accepted. -/
theorem C4_numeric_checks :
    (∀ p : Parsed, p.action.getD "add" = "add" → p.category = some "finance" →
      (∀ q, Data.numAt p.data "amount" = some q → q ≤ 0) →
      (validate_parsed p).1 = false)
    ∧ (∀ (p : Parsed) (q : ℚ), p.action.getD "add" = "add" → p.category = some "finance" →
      (Data.get p.data "description").isSome = true →
      (Data.get p.data "subcategory").isSome = true →
      Data.numAt p.data "amount" = some q → 0 < q →
      validate_parsed p = (true, ""))
    ∧ (∀ p : Parsed, p.action.getD "add" = "add" → p.category = some "sleep" →
      (∀ q, Data.numAt p.data "score" = some q → q < 0 ∨ 10 < q) →
      (validate_parsed p).1 = false)
    ∧ (∀ (p : Parsed) (q : ℚ), p.action.getD "add" = "add" → p.category = some "sleep" →
      Data.numAt p.data "score" = some q → 0 ≤ q → q ≤ 10 →
      validate_parsed p = (true, ""))
    ∧ (∀ p : Parsed, p.action.getD "add" = "add" → p.category = some "net_worth" →
      Data.numAt p.data "savings" = none → Data.numAt p.data "trading" = none →
      (validate_parsed p).1 = false)
    ∧ (∀ p : Parsed, p.action.getD "add" = "add" → p.category = some "net_worth" →
      ((Data.numAt p.data "savings").isSome ∨ (Data.numAt p.data "trading").isSome) →
      validate_parsed p = (true, "")) := by
  refine ⟨?_, ?_, ?_, ?_, ?_, ?_⟩
  · -- finance: non-numeric or non-positive amount is rejected
    intro p hact hcat hle
    cases hg : Data.get p.data "amount" with
    | none => simp [validate_parsed, hact, hcat, REQUIRED_FIELDS, hg]
    | some v =>
      cases hd : Data.get p.data "description" with
      | none => simp [validate_parsed, hact, hcat, REQUIRED_FIELDS, hg, hd]
      | some dv =>
        cases hs2 : Data.get p.data "subcategory" with
        | none => simp [validate_parsed, hact, hcat, REQUIRED_FIELDS, hg, hd, hs2]
        | some sv =>
          cases hn : Value.asNum v with
          | none =>
            simp [validate_parsed, hact, hcat, REQUIRED_FIELDS, VALID_ENUMS, Data.numAt,
              hg, hd, hs2, hn]
          | some q =>
            have hq : q ≤ 0 := hle q (by simp [Data.numAt, hg, hn])
            simp [validate_parsed, hact, hcat, REQUIRED_FIELDS, VALID_ENUMS, Data.numAt,
              hg, hd, hs2, hn, hq]
  · -- finance: positive numeric amount with required fields is accepted
    intro p q hact hcat hdesc hsub hamt hpos
    obtain ⟨dv, hd⟩ := Option.isSome_iff_exists.mp hdesc
    obtain ⟨sv, hs2⟩ := Option.isSome_iff_exists.mp hsub
    obtain ⟨av, hg, hn⟩ : ∃ av, Data.get p.data "amount" = some av ∧ Value.asNum av = some q := by
      cases hg : Data.get p.data "amount" with
      | none => rw [Data.numAt, hg] at hamt; simp at hamt
      | some v => rw [Data.numAt, hg] at hamt; simp at hamt; exact ⟨v, rfl, hamt⟩
    simp [validate_parsed, hact, hcat, REQUIRED_FIELDS, VALID_ENUMS, Data.numAt,
      hg, hd, hs2, hn, not_le.mpr hpos]
  · -- sleep: non-numeric or out-of-range score is rejected
    intro p hact hcat hout
    cases hg : Data.get p.data "score" with
    | none => simp [validate_parsed, hact, hcat, REQUIRED_FIELDS, hg]
    | some v =>
      cases hn : Value.asNum v with
      | none =>
        simp [validate_parsed, hact, hcat, REQUIRED_FIELDS, VALID_ENUMS, Data.numAt, hg, hn]
      | some q =>
        have hq : q < 0 ∨ 10 < q := hout q (by simp [Data.numAt, hg, hn])
        simp [validate_parsed, hact, hcat, REQUIRED_FIELDS, VALID_ENUMS, Data.numAt,
          hg, hn, hq]
  · -- sleep: numeric score in [0,10] is accepted
    intro p q hact hcat hamt h0 h10
    obtain ⟨av, hg, hn⟩ : ∃ av, Data.get p.data "score" = some av ∧ Value.asNum av = some q := by
      cases hg : Data.get p.data "score" with
      | none => rw [Data.numAt, hg] at hamt; simp at hamt
      | some v => rw [Data.numAt, hg] at hamt; simp at hamt; exact ⟨v, rfl, hamt⟩
    have : ¬ (q < 0 ∨ 10 < q) := by
      push_neg
      exact ⟨h0, h10⟩
    simp [validate_parsed, hact, hcat, REQUIRED_FIELDS, VALID_ENUMS, Data.numAt, hg, hn, this]
  · -- net_worth: neither savings nor trading numeric is rejected
    intro p hact hcat hsav htra
    simp [validate_parsed, hact, hcat, REQUIRED_FIELDS, VALID_ENUMS, hsav, htra]
  · -- net_worth: at least one numeric account is accepted
    intro p hact hcat hone
    rcases hone with hone | hone <;>
      obtain ⟨q, hq⟩ := Option.isSome_iff_exists.mp hone <;>
      simp [validate_parsed, hact, hcat, REQUIRED_FIELDS, VALID_ENUMS, hq]

/-- Witness for C4: a 47-dollar dinner passes, a zero amount fails; sleep 7
passes, 11 fails; net_worth with savings passes, with neither fails. -/
theorem C4_witness :
    (validate_parsed ⟨some "add", some "finance",
        [("amount", .num 0), ("description", .str "dinner"), ("subcategory", .str "food")],
        none, false, none⟩).1 = false
    ∧ validate_parsed ⟨some "add", some "finance",
        [("amount", .num 47), ("description", .str "dinner"), ("subcategory", .str "food")],
        none, false, none⟩ = (true, "")
    ∧ (validate_parsed ⟨some "add", some "sleep", [("score", .num 11)],
        none, false, none⟩).1 = false
    ∧ validate_parsed ⟨some "add", some "sleep", [("score", .num 7)],
        none, false, none⟩ = (true, "")
    ∧ (validate_parsed ⟨some "add", some "net_worth", [("date", .str "2026-10-12")],
        none, false, none⟩).1 = false
    ∧ validate_parsed ⟨some "add", some "net_worth", [("savings", .num 15000)],
        none, false, none⟩ = (true, "") :=
  ⟨C4_numeric_checks.1 _ rfl rfl (by decide),
   C4_numeric_checks.2.1 _ 47 rfl rfl (by decide) (by decide) (by decide) (by decide),
   C4_numeric_checks.2.2.1 _ rfl rfl (by decide),
   C4_numeric_checks.2.2.2.1 _ 7 rfl rfl (by decide) (by decide) (by decide),
   C4_numeric_checks.2.2.2.2.1 _ rfl rfl (by decide) (by decide),
   C4_numeric_checks.2.2.2.2.2 _ rfl rfl (Or.inl (by decide))⟩

/-! ## C5 — enum checks on add, no enum/numeric checks on remove: corrected
(the source checks `if value and value not in allowed`, so a present but
*falsy* invalid value — e.g. the empty string — is not rejected) -/

/-- Counterexample to C5 as stated: a dating `add` whose `status` is present
with value `""` — outside the allowed set — is *accepted* by the source,
because the empty string is falsy and the guard short-circuits. -/
theorem C5_counterexample :
    validate_parsed ⟨some "add", some "dating",
        [("person", .str "Amy"), ("status", .str "")], none, false, none⟩ = (true, "")
    ∧ Data.get [("person", Value.str "Amy"), ("status", Value.str "")] "status"
        = some (.str "")
    ∧ (Value.str "") ∉ (["active", "texting", "backburner"].map Value.str) := by
  decide

/-- C5, amended: on `add`, an enum field present with a *truthy* value
outside its allowed set causes a Rejection; on `remove`, enum and numeric
checks are not applied, so any remove command whose data contains the
category's reduced required field set is accepted. -/
theorem C5_enum_and_remove_checks :
    (∀ (p : Parsed) (v : Value) (c f : String) (allowed : List String),
      (f, allowed) ∈ VALID_ENUMS c →
      p.action.getD "add" = "add" → p.category = some c →
      Data.get p.data f = some v → v.truthy = true →
      v ∉ allowed.map Value.str →
      (validate_parsed p).1 = false)
    ∧ (∀ (p : Parsed) (c : String) (req : List String),
      p.action = some "remove" → p.category = some c →
      REQUIRED_FIELDS_REMOVE c = some req →
      (∀ f ∈ req, (Data.get p.data f).isSome = true) →
      validate_parsed p = (true, "")) := by
  constructor
  · intro p v c f allowed hmem hact hcat hget htru hnotin
    have hviol : enumViolation p.data (f, allowed) = true := by
      simp [enumViolation, hget, htru, hnotin]
    have hfound : ((VALID_ENUMS c).find? (enumViolation p.data)).isSome := by
      rw [List.find?_isSome]
      exact ⟨(f, allowed), hmem, hviol⟩
    obtain ⟨y, hy⟩ := Option.isSome_iff_exists.mp hfound
    by_cases hc1 : c = "dating"
    · subst hc1
      simp [VALID_ENUMS] at hmem
      obtain ⟨hf, hal⟩ := hmem
      subst hf
      cases hp1 : Data.get p.data "person" with
      | none => simp [validate_parsed, hact, hcat, REQUIRED_FIELDS, hp1]
      | some pv => simp [validate_parsed, hact, hcat, REQUIRED_FIELDS, hp1, hget, hy]
    · by_cases hc2 : c = "todos"
      · subst hc2
        simp [VALID_ENUMS] at hmem
        rcases hmem with ⟨hf, hal⟩ | ⟨hf, hal⟩
        · subst hf
          cases ht : Data.get p.data "task" with
          | none => simp [validate_parsed, hact, hcat, REQUIRED_FIELDS, ht]
          | some tv =>
            cases hst : Data.get p.data "status" with
            | none => simp [validate_parsed, hact, hcat, REQUIRED_FIELDS, ht, hget, hst]
            | some sv =>
              simp [validate_parsed, hact, hcat, REQUIRED_FIELDS, ht, hget, hst, hy]
        · subst hf
          cases ht : Data.get p.data "task" with
          | none => simp [validate_parsed, hact, hcat, REQUIRED_FIELDS, ht]
          | some tv =>
            cases hpr : Data.get p.data "priority" with
            | none => simp [validate_parsed, hact, hcat, REQUIRED_FIELDS, ht, hget, hpr]
            | some pv =>
              simp [validate_parsed, hact, hcat, REQUIRED_FIELDS, ht, hget, hpr, hy]
      · by_cases hc3 : c = "habits"
        · subst hc3
          simp [VALID_ENUMS] at hmem
          obtain ⟨hf, hal⟩ := hmem
          subst hf
          simp [validate_parsed, hact, hcat, REQUIRED_FIELDS, hget, hy]
        · exfalso
          have hnil : VALID_ENUMS c = [] := by
            rw [VALID_ENUMS.eq_def]
            split
            · exact absurd rfl hc1
            · exact absurd rfl hc2
            · exact absurd rfl hc3
            · rfl
          rw [hnil] at hmem
          simp at hmem
  · intro p c req hact hcat hreq hpres
    have hmiss : req.filter (fun f => (Data.get p.data f).isNone) = [] := by
      rw [List.filter_eq_nil_iff]
      intro f hf
      obtain ⟨v, hv⟩ := Option.isSome_iff_exists.mp (hpres f hf)
      simp [hv]
    simp [validate_parsed, hact, hcat, hreq, hmiss]

/-- Witness for the amended C5: a truthy invalid dating status is rejected;
a remove with empty criteria in a category whose reduced required set is
empty is accepted. -/
theorem C5_witness :
    (validate_parsed ⟨some "add", some "dating",
        [("person", .str "Amy"), ("status", .str "married")], none, false, none⟩).1 = false
    ∧ validate_parsed ⟨some "remove", some "finance", [], none, false, none⟩ = (true, "") :=
  ⟨C5_enum_and_remove_checks.1 _ (.str "married") "dating" "status"
      ["active", "texting", "backburner"] (by decide) rfl rfl (by decide) (by decide)
      (by decide),
   C5_enum_and_remove_checks.2 _ "finance" [] rfl rfl rfl (by decide)⟩

end Dashbored
